import Mathlib

/-!
# Verification of the rate-limiting core of jodit-ai-adapter

Shallow embedding of the request-admission / rate-limiting subsystem:

* `MemoryRateLimiter` (src/rate-limiter/memory-rate-limiter.ts) — in-process
  fixed-window counter over a keyed map;
* `RedisRateLimiter` (same module) — shared sliding-log counter over a
  per-key sorted set, whose consume path is a single server-side Lua script
  (remove-old / count / insert / expire), modelled here as one atomic
  transition on the store state; store unavailability is modelled by the
  connection being `none`;
* `rateLimitMiddleware` (src/middlewares/rate-limit.ts) — the Express
  admission gate, modelled as a pure function from the request-relevant
  inputs (skip outcome, consume outcome, callback behaviour) to the set
  response headers and a pass/reject outcome.

Timestamps, durations and counters are JavaScript numbers carrying integer
values; they are embedded as `Int`.  Header values that the middleware
renders as strings (decimal numbers, the ISO-8601 instant) are embedded as
the numeric values themselves.
-/

/-- Result of a rate-limit check (`RateLimitResult` in
src/rate-limiter/types.ts). -/
structure RateLimitResult where
  allowed : Bool
  current : Int
  limit : Int
  remaining : Int
  resetTime : Int
  deriving DecidableEq, Repr

/-- Per-key record of the in-memory limiter (`RequestRecord`). -/
structure RequestRecord where
  count : Int
  windowStart : Int
  deriving DecidableEq, Repr

/-- The configuration fields shared by both limiter backends
(`RateLimiterConfig`): `maxRequests`, `windowMs`, the key namespace
(source field `keyPrefix`, here `keyPfx`), and the optional per-key skip
predicate.  The Redis variant's extra connection fields do not enter the
counting algorithm and are omitted. -/
structure RLConfig where
  maxRequests : Int
  windowMs : Int
  keyPfx : String
  skip : Option (String → Bool)

/-- `getPrefixedKey`: prepend the configured namespace to the caller key. -/
def getPrefixedKey (cfg : RLConfig) (key : String) : String :=
  cfg.keyPfx ++ key

/-- `this.config.skip && (await this.config.skip(key))`. -/
def skipApplies (cfg : RLConfig) (key : String) : Bool :=
  match cfg.skip with
  | some f => f key
  | none => false

/-- The "allowed, uncharged" result returned on a skip hit, and also by the
Redis fail-open paths: `{allowed: true, current: 0, limit, remaining: limit,
resetTime: 0}`. -/
def unchargedResult (cfg : RLConfig) : RateLimitResult :=
  { allowed := true
    current := 0
    limit := cfg.maxRequests
    remaining := cfg.maxRequests
    resetTime := 0 }

/-- `Math.max(a, b)` on integral JavaScript numbers. -/
def jsMax (a b : Int) : Int :=
  if a ≤ b then b else a

/-- The in-memory limiter's storage: `Map<string, RequestRecord>`. -/
def MemState : Type := String → Option RequestRecord

/-- `storage.set(k, v)`. -/
def memSet (s : MemState) (k : String) (v : RequestRecord) : MemState :=
  fun k' => if k' = k then some v else s k'

/-- `storage.delete(k)`. -/
def memDelete (s : MemState) (k : String) : MemState :=
  fun k' => if k' = k then none else s k'

/-- `MemoryRateLimiter.consume(key)` at instant `now`, returning the updated
storage together with the result.  Follows the source branch for branch:
skip hit; absent record or elapsed window (fresh window of count 1);
otherwise in-place increment. -/
def memConsume (cfg : RLConfig) (s : MemState) (key : String) (now : Int) :
    MemState × RateLimitResult :=
  if skipApplies cfg key then
    (s, unchargedResult cfg)
  else
    let pk := getPrefixedKey cfg key
    match s pk with
    | none =>
        (memSet s pk { count := 1, windowStart := now },
         { allowed := true
           current := 1
           limit := cfg.maxRequests
           remaining := cfg.maxRequests - 1
           resetTime := cfg.windowMs })
    | some record =>
        if now - record.windowStart ≥ cfg.windowMs then
          (memSet s pk { count := 1, windowStart := now },
           { allowed := true
             current := 1
             limit := cfg.maxRequests
             remaining := cfg.maxRequests - 1
             resetTime := cfg.windowMs })
        else
          let c := record.count + 1
          (memSet s pk { count := c, windowStart := record.windowStart },
           { allowed := decide (c ≤ cfg.maxRequests)
             current := c
             limit := cfg.maxRequests
             remaining := jsMax 0 (cfg.maxRequests - c)
             resetTime := cfg.windowMs - (now - record.windowStart) })

/-- `MemoryRateLimiter.getState(key)` at instant `now`.  The source method
only reads the map; the returned state is the input state. -/
def memGetState (cfg : RLConfig) (s : MemState) (key : String) (now : Int) :
    MemState × RateLimitResult :=
  let pk := getPrefixedKey cfg key
  match s pk with
  | none =>
      (s, { allowed := true
            current := 0
            limit := cfg.maxRequests
            remaining := cfg.maxRequests
            resetTime := 0 })
  | some record =>
      if now - record.windowStart ≥ cfg.windowMs then
        (s, { allowed := true
              current := 0
              limit := cfg.maxRequests
              remaining := cfg.maxRequests
              resetTime := 0 })
      else
        (s, { allowed := decide (record.count < cfg.maxRequests)
              current := record.count
              limit := cfg.maxRequests
              remaining := jsMax 0 (cfg.maxRequests - record.count)
              resetTime := cfg.windowMs - (now - record.windowStart) })

/-- `MemoryRateLimiter.cleanup()` run at instant `now`: evict every record
whose window has fully elapsed. -/
def memCleanup (cfg : RLConfig) (s : MemState) (now : Int) : MemState :=
  fun k =>
    match s k with
    | some record =>
        if now - record.windowStart ≥ cfg.windowMs then none else some record
    | none => none

/-- A per-key Redis sorted set as used by `RedisRateLimiter`: the member
scores (event timestamps, `ZADD key now <member>`; each consume adds a fresh
member, so the set is modelled as the list of scores) together with the
key's expiry as last set by `PEXPIRE` (milliseconds). -/
structure RedisEntry where
  events : List Int
  pttl : Int
  deriving DecidableEq, Repr

/-- The Redis keyspace. -/
def RedisStore : Type := String → Option RedisEntry

/-- Writing a key of the Redis keyspace. -/
def storeSet (s : RedisStore) (k : String) (v : RedisEntry) : RedisStore :=
  fun k' => if k' = k then some v else s k'

/-- Removing a key of the Redis keyspace. -/
def storeDelete (s : RedisStore) (k : String) : RedisStore :=
  fun k' => if k' = k then none else s k'

/-- The scores stored at a key (`ZRANGE`-visible members; `[]` when the key
is absent). -/
def storedEvents (s : RedisStore) (k : String) : List Int :=
  match s k with
  | some entry => entry.events
  | none => []

/-- `ZREMRANGEBYSCORE key 0 windowStart`: drop every member whose score
lies in `[0, windowStart]`. -/
def zremUpTo (windowStart : Int) (events : List Int) : List Int :=
  events.filter (fun e => !(decide (0 ≤ e) && decide (e ≤ windowStart)))

/-- The Redis connection as the limiter sees it: `some store` when the
store is reachable, `none` when it is unreachable or the operation errors
(the `catch` branches of the source). -/
def RedisConn : Type := Option RedisStore

/-- `RedisRateLimiter.consume(key)` at instant `now`.  After the skip
check, the whole Lua script (remove-old / count / insert / set-expiry /
return pre-insert count) runs as one atomic step against the store; the
returned charged count is the script result plus one.  When the store is
unreachable the `catch` branch fails open with the uncharged result. -/
def redisConsume (cfg : RLConfig) (conn : RedisConn) (key : String)
    (now : Int) : RedisConn × RateLimitResult :=
  if skipApplies cfg key then
    (conn, unchargedResult cfg)
  else
    match conn with
    | none => (none, unchargedResult cfg)
    | some store =>
        let pk := getPrefixedKey cfg key
        let windowStart := now - cfg.windowMs
        let kept := zremUpTo windowStart (storedEvents store pk)
        let preCount : Int := kept.length
        let store' :=
          storeSet store pk { events := now :: kept, pttl := cfg.windowMs }
        let current := preCount + 1
        (some store',
         { allowed := decide (current ≤ cfg.maxRequests)
           current := current
           limit := cfg.maxRequests
           remaining := jsMax 0 (cfg.maxRequests - current)
           resetTime := cfg.windowMs })

/-- `RedisRateLimiter.getState(key)` at instant `now`: `ZREMRANGEBYSCORE`
(an eager purge of expired members — a write; Redis deletes the key once
the set becomes empty), `ZCARD`, and `ZRANGE 0 0 WITHSCORES` for the oldest
remaining score, from which the reset time is derived.  Fails open on an
unreachable store. -/
def redisGetState (cfg : RLConfig) (conn : RedisConn) (key : String)
    (now : Int) : RedisConn × RateLimitResult :=
  match conn with
  | none => (none, unchargedResult cfg)
  | some store =>
      let pk := getPrefixedKey cfg key
      let windowStart := now - cfg.windowMs
      match store pk with
      | none =>
          (some store,
           { allowed := decide ((0 : Int) < cfg.maxRequests)
             current := 0
             limit := cfg.maxRequests
             remaining := jsMax 0 (cfg.maxRequests - 0)
             resetTime := 0 })
      | some entry =>
          let kept := zremUpTo windowStart entry.events
          let store' :=
            if kept.isEmpty then storeDelete store pk
            else storeSet store pk { events := kept, pttl := entry.pttl }
          let current : Int := kept.length
          let resetTime :=
            match kept.min? with
            | some oldest => jsMax 0 (cfg.windowMs - (now - oldest))
            | none => 0
          (some store',
           { allowed := decide (current < cfg.maxRequests)
             current := current
             limit := cfg.maxRequests
             remaining := jsMax 0 (cfg.maxRequests - current)
             resetTime := resetTime })

/-- `Math.ceil(x / 1000)` on an integral JavaScript number. -/
def jsCeilDiv1000 (x : Int) : Int :=
  -(Int.fdiv (-x) 1000)

/-- The structured error produced by `Boom.tooManyRequests(message, data)`:
HTTP status 429 with the human-readable message and the machine-readable
`data = {limit, current, resetTime}`. -/
structure BoomErr where
  status : Int
  message : String
  dataLimit : Int
  dataCurrent : Int
  dataResetTime : Int
  deriving DecidableEq, Repr

/-- How one invocation of the middleware ends: `next()` with no argument
(the request proceeds) or `next(error)` with the structured error (the
request is rejected). -/
inductive MwOutcome where
  | pass : MwOutcome
  | reject : BoomErr → MwOutcome
  deriving DecidableEq, Repr

/-- Default rejection message of `rateLimitMiddleware`. -/
def defaultLimitMessage : String :=
  "Too many requests, please try again later"

/-- Response header names used by the gate. -/
def hLimit : String := "X-RateLimit-Limit"

/-- Header carrying the remaining budget. -/
def hRemaining : String := "X-RateLimit-Remaining"

/-- Header carrying the absolute reset instant (rendered ISO-8601 by the
source; modelled as the instant `now + resetTime`). -/
def hReset : String := "X-RateLimit-Reset"

/-- Header carrying the whole seconds until reset, sent on rejection. -/
def hRetryAfter : String := "Retry-After"

/-- `RateLimitMiddlewareOptions`, restricted to what the handler's control
flow depends on.  `message = none` means the option was not given (the
destructuring default applies); likewise the skip predicate and the
`onLimitReached` callback are optional. -/
structure MwOptions where
  message : Option String
  includeHeaders : Bool

/-- How the optional `onLimitReached` callback behaves on this request:
`none` — not configured; `some false` — configured and returns normally;
`some true` — configured and throws a (non-Boom) error. -/
abbrev CbBehaviour : Type := Option Bool

/-- One run of the handler returned by `rateLimitMiddleware`, as a function
of the request-relevant inputs: `skipReq` is the value of the request-level
skip predicate (`none` when not configured), `consumeOut` the outcome of
`rateLimiter.consume(key)` (`Except.error` models the limiter itself
throwing), `cb` the `onLimitReached` behaviour, and `now` the clock read
used for the absolute reset header.  Returns the response headers set (in
order, name and numeric value) and the outcome.  A non-Boom error thrown
anywhere inside the `try` lands in the `catch`, which logs and calls
`next()`; the thrown `Boom.tooManyRequests` is recognised by `Boom.isBoom`
and forwarded to `next(error)`. -/
def rateLimitMw (opts : MwOptions) (skipReq : Option Bool)
    (consumeOut : Except Unit RateLimitResult) (cb : CbBehaviour)
    (now : Int) : List (String × Int) × MwOutcome :=
  match skipReq with
  | some true => ([], MwOutcome.pass)
  | _ =>
      match consumeOut with
      | Except.error _ => ([], MwOutcome.pass)
      | Except.ok r =>
          let hs :=
            if opts.includeHeaders then
              [(hLimit, r.limit), (hRemaining, r.remaining),
               (hReset, now + r.resetTime)]
            else []
          if r.allowed then
            (hs, MwOutcome.pass)
          else
            match cb with
            | some true => (hs, MwOutcome.pass)
            | _ =>
                let hs2 := hs ++ [(hRetryAfter, jsCeilDiv1000 r.resetTime)]
                (hs2,
                 MwOutcome.reject
                   { status := 429
                     message := opts.message.getD defaultLimitMessage
                     dataLimit := r.limit
                     dataCurrent := r.current
                     dataResetTime := r.resetTime })

/-! ## Iterated calls, operation sequences, and spec-side notions -/

/-- State of the in-memory limiter after `n` successive `consume(key)`
calls, the `j`-th issued at instant `t j`. -/
def memConsumeIter (cfg : RLConfig) (key : String) (t : Nat → Int)
    (s : MemState) : Nat → MemState
  | 0 => s
  | n + 1 => (memConsume cfg (memConsumeIter cfg key t s n) key (t n)).1

/-- Result of the `(n+1)`-th of those calls (0-indexed `n`). -/
def memConsumeNth (cfg : RLConfig) (key : String) (t : Nat → Int)
    (s : MemState) (n : Nat) : RateLimitResult :=
  (memConsume cfg (memConsumeIter cfg key t s n) key (t n)).2

/-- Connection state after `n` successive Redis `consume(key)` calls. -/
def redisConsumeIter (cfg : RLConfig) (key : String) (t : Nat → Int)
    (conn : RedisConn) : Nat → RedisConn
  | 0 => conn
  | n + 1 => (redisConsume cfg (redisConsumeIter cfg key t conn n) key (t n)).1

/-- Result of the `(n+1)`-th Redis `consume(key)` call (0-indexed `n`). -/
def redisConsumeNth (cfg : RLConfig) (key : String) (t : Nat → Int)
    (conn : RedisConn) (n : Nat) : RateLimitResult :=
  (redisConsume cfg (redisConsumeIter cfg key t conn n) key (t n)).2

/-- Connection state after `n` successive Redis `getState(key)` calls, all
issued at the same instant. -/
def redisGetStateIter (cfg : RLConfig) (key : String) (now : Int)
    (conn : RedisConn) : Nat → RedisConn
  | 0 => conn
  | n + 1 =>
      (redisGetState cfg (redisGetStateIter cfg key now conn n) key now).1

/-- Result of the `(n+1)`-th of those `getState(key)` calls. -/
def redisGetStateNth (cfg : RLConfig) (key : String) (now : Int)
    (conn : RedisConn) (n : Nat) : RateLimitResult :=
  (redisGetState cfg (redisGetStateIter cfg key now conn n) key now).2

/-- The event list `t (n-1), …, t 1, t 0` (newest first), as the sorted set
of a key holds it after `n` consume calls. -/
def evList (t : Nat → Int) : Nat → List Int
  | 0 => []
  | n + 1 => t n :: evList t n

/-- Spec-side notion for the shared backend: the recorded events whose
timestamp lies strictly within the trailing window of length `windowMs`
ending at `now`, i.e. in the half-open interval `(now - windowMs, now]`. -/
def eventsInWindow (now windowMs : Int) (events : List Int) : List Int :=
  events.filter (fun e => decide (now - windowMs < e) && decide (e ≤ now))

/-- An observable operation against one limiter, stamped with the instant
at which it runs. -/
inductive RLOp where
  | consumeOp : String → Int → RLOp
  | getStateOp : String → Int → RLOp
  deriving DecidableEq, Repr

/-- The instant at which an operation runs. -/
def RLOp.time : RLOp → Int
  | RLOp.consumeOp _ now => now
  | RLOp.getStateOp _ now => now

/-- Run one operation against the in-memory limiter. -/
def memStep (cfg : RLConfig) (s : MemState) : RLOp → MemState × RateLimitResult
  | RLOp.consumeOp key now => memConsume cfg s key now
  | RLOp.getStateOp key now => memGetState cfg s key now

/-- Results of a sequence of operations against the in-memory limiter,
threading the storage through. -/
def memRunResults (cfg : RLConfig) (s : MemState) :
    List RLOp → List RateLimitResult
  | [] => []
  | op :: ops =>
      (memStep cfg s op).2 :: memRunResults cfg (memStep cfg s op).1 ops

/-- The live view of a stored record at instant `now`: an absent or fully
elapsed record is `none`, an in-window record is kept.  `memCleanup` is
pointwise exactly this view taken at the cleanup instant. -/
def liveRec (cfg : RLConfig) (now : Int) :
    Option RequestRecord → Option RequestRecord
  | some record =>
      if now - record.windowStart ≥ cfg.windowMs then none else some record
  | none => none

/-- Two storages that agree on their live views at every instant from `t`
on; operations run at such instants cannot tell them apart. -/
def liveEquiv (cfg : RLConfig) (t : Int) (s₁ s₂ : MemState) : Prop :=
  ∀ k now, t ≤ now → liveRec cfg now (s₁ k) = liveRec cfg now (s₂ k)

/-- The record `MemoryRateLimiter.consume` writes, as a function of the
live view of the stored record. -/
def consumeRecord (now : Int) : Option RequestRecord → RequestRecord
  | none => { count := 1, windowStart := now }
  | some record => { count := record.count + 1, windowStart := record.windowStart }

/-- The result `MemoryRateLimiter.consume` returns (past the skip check),
as a function of the live view of the stored record. -/
def consumeResult (cfg : RLConfig) (now : Int) :
    Option RequestRecord → RateLimitResult
  | none =>
      { allowed := true
        current := 1
        limit := cfg.maxRequests
        remaining := cfg.maxRequests - 1
        resetTime := cfg.windowMs }
  | some record =>
      { allowed := decide (record.count + 1 ≤ cfg.maxRequests)
        current := record.count + 1
        limit := cfg.maxRequests
        remaining := jsMax 0 (cfg.maxRequests - (record.count + 1))
        resetTime := cfg.windowMs - (now - record.windowStart) }

/-- The result `MemoryRateLimiter.getState` returns, as a function of the
live view of the stored record. -/
def stateResult (cfg : RLConfig) (now : Int) :
    Option RequestRecord → RateLimitResult
  | none =>
      { allowed := true
        current := 0
        limit := cfg.maxRequests
        remaining := cfg.maxRequests
        resetTime := 0 }
  | some record =>
      { allowed := decide (record.count < cfg.maxRequests)
        current := record.count
        limit := cfg.maxRequests
        remaining := jsMax 0 (cfg.maxRequests - record.count)
        resetTime := cfg.windowMs - (now - record.windowStart) }

/-- The spec's Consumption Result invariant:
`remaining = max(0, limit - current)` and `allowed = (current ≤ limit)`. -/
def specResultInv (r : RateLimitResult) : Prop :=
  r.remaining = jsMax 0 (r.limit - r.current) ∧
    (r.allowed = true ↔ r.current ≤ r.limit)

/-- The invariant the `getState` paths actually maintain:
`remaining = max(0, limit - current)` and `allowed = (current < limit)`. -/
def stateResultInv (r : RateLimitResult) : Prop :=
  r.remaining = jsMax 0 (r.limit - r.current) ∧
    (r.allowed = true ↔ r.current < r.limit)

instance (r : RateLimitResult) : Decidable (specResultInv r) := by
  unfold specResultInv
  infer_instance

instance (r : RateLimitResult) : Decidable (stateResultInv r) := by
  unfold stateResultInv
  infer_instance

/-! ## Concrete fixtures used by witnesses and counterexamples -/

/-- A plain configuration: 3 requests per 1000 ms, no skip predicate. -/
def cfgA : RLConfig :=
  { maxRequests := 3, windowMs := 1000, keyPfx := "rl:", skip := none }

/-- Same budget, with a skip predicate matching the key `admin`. -/
def cfgSkipA : RLConfig :=
  { maxRequests := 3, windowMs := 1000, keyPfx := "rl:",
    skip := some fun k => k == "admin" }

/-- Empty in-memory storage. -/
def memEmpty : MemState := fun _ => none

/-- Empty Redis keyspace. -/
def storeEmpty : RedisStore := fun _ => none

/-- In-memory storage holding a saturated record for key `k`:
3 requests counted since instant 0. -/
def memS3 : MemState :=
  fun k => if k = "rl:k" then some { count := 3, windowStart := 0 } else none

/-- Redis keyspace holding, for key `k`, one event at instant 0 (expired
once `now - windowMs ≥ 0`). -/
def storeOld : RedisStore :=
  fun k => if k = "rl:k" then some { events := [0], pttl := 77 } else none

/-- Redis keyspace holding, for key `k`, one in-window event (900) and one
expired event (100) relative to `now = 1200`, `windowMs = 1000`. -/
def storeMixed : RedisStore :=
  fun k => if k = "rl:k" then some { events := [900, 100], pttl := 77 } else none

/-- The events visible at a key through a possibly-unreachable
connection. -/
def connEvents (conn : RedisConn) (k : String) : List Int :=
  match conn with
  | some store => storedEvents store k
  | none => []

/-- Call instants 0, 1, 2, … (one per millisecond), all inside one
window of any configuration with `windowMs` beyond the call count. -/
def tLin : Nat → Int := fun j => (j : Int)

/-- A consume result that trips the limit: 4th request against a budget of
3, 500 ms until reset. -/
def rLimited : RateLimitResult :=
  { allowed := false, current := 4, limit := 3, remaining := 0,
    resetTime := 500 }

/-- Middleware options with every optional value left to its default. -/
def mwDefaults : MwOptions :=
  { message := none, includeHeaders := true }

/-- Middleware options with the rate-limit headers disabled. -/
def mwNoHeaders : MwOptions :=
  { message := none, includeHeaders := false }

/-! ## General lemmas about the embedded operations -/

theorem listFilterExt (p q : Int → Bool) :
    ∀ l : List Int, (∀ a ∈ l, p a = q a) → l.filter p = l.filter q := by
  intro l
  induction l with
  | nil => intro _; rfl
  | cons a t ih =>
      intro h
      simp only [List.filter_cons]
      rw [h a (by simp), ih (fun e he => h e (by simp [he]))]

/-- When every stored score is a valid timestamp (between 0 and `now`),
the purge `ZREMRANGEBYSCORE key 0 (now - windowMs)` keeps exactly the
events strictly within the trailing window ending at `now`. -/
theorem zremUpTo_eq_eventsInWindow (windowMs now : Int) (es : List Int)
    (h : ∀ e ∈ es, 0 ≤ e ∧ e ≤ now) :
    zremUpTo (now - windowMs) es = eventsInWindow now windowMs es := by
  unfold zremUpTo eventsInWindow
  apply listFilterExt
  intro e he
  obtain ⟨h0, hn⟩ := h e he
  by_cases hc : e ≤ now - windowMs
  · have hnlt : ¬ (now - windowMs < e) := by omega
    simp [h0, hc, hnlt]
  · have hlt : now - windowMs < e := by omega
    simp [h0, hc, hn, hlt]

theorem memGetState_fst (cfg : RLConfig) (s : MemState) (key : String)
    (now : Int) : (memGetState cfg s key now).1 = s := by
  unfold memGetState
  dsimp only
  split
  · rfl
  · split <;> rfl

/-! ## C5 — local backend starts a brand-new window -/

/-- C5: for the local backend, a `consume(key)` with skip absent or false
that finds no record, or finds `now - windowStart ≥ windowMs`, starts a
brand-new window (`count = 1`, `windowStart = now`) and returns
`allowed = true`, `current = 1`, `remaining = limit - 1`,
`resetTime = windowMs`, regardless of the previous window's count. -/
theorem C5_local_fresh_window (cfg : RLConfig) (s : MemState) (key : String)
    (now : Int) (hskip : skipApplies cfg key = false)
    (hfresh : s (getPrefixedKey cfg key) = none ∨
      ∃ record, s (getPrefixedKey cfg key) = some record ∧
        now - record.windowStart ≥ cfg.windowMs) :
    memConsume cfg s key now =
      (memSet s (getPrefixedKey cfg key) { count := 1, windowStart := now },
       { allowed := true, current := 1, limit := cfg.maxRequests,
         remaining := cfg.maxRequests - 1, resetTime := cfg.windowMs }) := by
  unfold memConsume
  rw [hskip]
  simp only [Bool.false_eq_true, if_false]
  rcases hfresh with h | ⟨record, hrec, hw⟩
  · rw [h]
  · rw [hrec]
    dsimp only
    rw [if_pos hw]

/-- Witness for C5: key `k` holds a saturated record (3 of 3 requests)
whose window started at instant 0; a consume at instant 2000 restarts the
window and is allowed with `current = 1`. -/
theorem C5_witness :
    skipApplies cfgA "k" = false ∧
    memS3 (getPrefixedKey cfgA "k") =
      some { count := 3, windowStart := 0 } ∧
    (2000 : Int) - 0 ≥ cfgA.windowMs ∧
    memConsume cfgA memS3 "k" 2000 =
      (memSet memS3 (getPrefixedKey cfgA "k") { count := 1, windowStart := 2000 },
       { allowed := true, current := 1, limit := cfgA.maxRequests,
         remaining := cfgA.maxRequests - 1, resetTime := cfgA.windowMs }) :=
  ⟨by decide, by decide, by decide,
   C5_local_fresh_window cfgA memS3 "k" 2000 (by decide)
     (Or.inr ⟨{ count := 3, windowStart := 0 }, by decide, by decide⟩)⟩

/-! ## C2 — shared backend fails open -/

/-- C2: for the shared backend, when the store is unreachable or the
operation errors (`conn = none`), `consume` and `getState` return
`allowed = true`, `current = 0`, `remaining = limit` for every key —
they neither throw nor block. -/
theorem C2_fail_open (cfg : RLConfig) (key : String) (now : Int) :
    redisConsume cfg none key now =
      (none, { allowed := true, current := 0, limit := cfg.maxRequests,
               remaining := cfg.maxRequests, resetTime := 0 }) ∧
    redisGetState cfg none key now =
      (none, { allowed := true, current := 0, limit := cfg.maxRequests,
               remaining := cfg.maxRequests, resetTime := 0 }) := by
  constructor
  · unfold redisConsume
    split <;> rfl
  · rfl

/-! ## C8 — skip predicate yields uncharged results and no state change -/

/-- C8: for both backends, when the configured skip predicate evaluates
true for the key, `consume` returns `allowed = true`, `current = 0`,
`remaining = limit` and leaves the limiter state unchanged; iterating any
number of consumes leaves the state unchanged as well. -/
theorem C8_skip_uncharged (cfg : RLConfig) (s : MemState) (conn : RedisConn)
    (key : String) (t : Nat → Int) (now : Int) (n : Nat) (f : String → Bool)
    (hf : cfg.skip = some f) (hkey : f key = true) :
    memConsume cfg s key now =
      (s, { allowed := true, current := 0, limit := cfg.maxRequests,
            remaining := cfg.maxRequests, resetTime := 0 }) ∧
    redisConsume cfg conn key now =
      (conn, { allowed := true, current := 0, limit := cfg.maxRequests,
               remaining := cfg.maxRequests, resetTime := 0 }) ∧
    memConsumeIter cfg key t s n = s ∧
    redisConsumeIter cfg key t conn n = conn := by
  have hskip : skipApplies cfg key = true := by
    unfold skipApplies
    rw [hf]
    exact hkey
  have hmem : ∀ m, memConsume cfg s key m = (s, unchargedResult cfg) := by
    intro m
    unfold memConsume
    rw [hskip]
    rfl
  have hred : ∀ m, redisConsume cfg conn key m = (conn, unchargedResult cfg) := by
    intro m
    unfold redisConsume
    rw [hskip]
    rfl
  refine ⟨hmem now, hred now, ?_, ?_⟩
  · induction n with
    | zero => rfl
    | succ m ih =>
        unfold memConsumeIter
        rw [ih, hmem (t m)]
  · induction n with
    | zero => rfl
    | succ m ih =>
        unfold redisConsumeIter
        rw [ih, hred (t m)]

/-- Witness for C8: with the skip predicate of `cfgSkipA` and the key
`admin`, a consume at instant 50 on both backends is uncharged and the
state after 7 iterated consumes is unchanged. -/
theorem C8_witness :
    cfgSkipA.skip.isSome = true ∧
    memConsume cfgSkipA memS3 "admin" 50 =
      (memS3, { allowed := true, current := 0, limit := cfgSkipA.maxRequests,
                remaining := cfgSkipA.maxRequests, resetTime := 0 }) ∧
    memConsumeIter cfgSkipA "admin" (fun j => (j : Int)) memS3 7 = memS3 :=
  by
  have h := C8_skip_uncharged cfgSkipA memS3 (some storeOld) "admin"
    (fun j => (j : Int)) 50 7 (fun k => k == "admin") rfl (by decide)
  exact ⟨rfl, h.1, h.2.2.1⟩

/-! ## C4 — result invariants, corrected -/

/-- Counterexample to C4 as stated: with limit 3 and a record of 3 counted
requests in the current window, `MemoryRateLimiter.getState` returns
`allowed = false` although `current ≤ limit`, so the spec's invariant
`allowed = (current ≤ limit)` fails on a `getState` result. -/
theorem C4_counterexample :
    (memGetState cfgA memS3 "k" 5).2.allowed = false ∧
    (memGetState cfgA memS3 "k" 5).2.current ≤
      (memGetState cfgA memS3 "k" 5).2.limit ∧
    ¬ specResultInv (memGetState cfgA memS3 "k" 5).2 := by
  decide

/-- C4 amended: every result of `consume` (either backend, including the
skip and fail-open branches) satisfies `remaining = max(0, limit - current)`
and `allowed = (current ≤ limit)`; every result of `getState` (either
backend, including the empty and fail-open branches) satisfies
`remaining = max(0, limit - current)` and `allowed = (current < limit)`. -/
theorem specInv_uncharged (cfg : RLConfig) (hL : 1 ≤ cfg.maxRequests) :
    specResultInv (unchargedResult cfg) := by
  unfold specResultInv unchargedResult jsMax
  refine ⟨?_, ?_⟩
  · dsimp only
    split <;> omega
  · dsimp only
    constructor
    · intro _
      omega
    · intro _
      rfl

theorem specInv_fresh (cfg : RLConfig) (hL : 1 ≤ cfg.maxRequests) :
    specResultInv
      { allowed := true, current := 1, limit := cfg.maxRequests,
        remaining := cfg.maxRequests - 1, resetTime := cfg.windowMs } := by
  unfold specResultInv jsMax
  refine ⟨?_, ?_⟩
  · dsimp only
    split <;> omega
  · dsimp only
    constructor
    · intro _
      omega
    · intro _
      rfl

theorem specInv_counted (cfg : RLConfig) (c rt : Int) :
    specResultInv
      { allowed := decide (c ≤ cfg.maxRequests), current := c,
        limit := cfg.maxRequests, remaining := jsMax 0 (cfg.maxRequests - c),
        resetTime := rt } := by
  unfold specResultInv
  refine ⟨rfl, ?_⟩
  dsimp only
  simp only [decide_eq_true_eq]

theorem stateInv_zero (cfg : RLConfig) (hL : 1 ≤ cfg.maxRequests) :
    stateResultInv
      { allowed := true, current := 0, limit := cfg.maxRequests,
        remaining := cfg.maxRequests, resetTime := 0 } := by
  unfold stateResultInv jsMax
  refine ⟨?_, ?_⟩
  · dsimp only
    split <;> omega
  · dsimp only
    constructor
    · intro _
      omega
    · intro _
      rfl

theorem stateInv_counted (cfg : RLConfig) (c rt : Int) :
    stateResultInv
      { allowed := decide (c < cfg.maxRequests), current := c,
        limit := cfg.maxRequests, remaining := jsMax 0 (cfg.maxRequests - c),
        resetTime := rt } := by
  unfold stateResultInv
  refine ⟨rfl, ?_⟩
  dsimp only
  simp only [decide_eq_true_eq]

/-- C4 amended: every result of `consume` (either backend, including the
skip and fail-open branches) satisfies `remaining = max(0, limit - current)`
and `allowed = (current ≤ limit)`; every result of `getState` (either
backend, including the empty and fail-open branches) instead satisfies
`remaining = max(0, limit - current)` and `allowed = (current < limit)`. -/
theorem C4_result_invariants (cfg : RLConfig) (s : MemState)
    (conn : RedisConn) (key : String) (now : Int)
    (hL : 1 ≤ cfg.maxRequests) :
    specResultInv (memConsume cfg s key now).2 ∧
    specResultInv (redisConsume cfg conn key now).2 ∧
    stateResultInv (memGetState cfg s key now).2 ∧
    stateResultInv (redisGetState cfg conn key now).2 := by
  refine ⟨?_, ?_, ?_, ?_⟩
  · unfold memConsume
    split
    · exact specInv_uncharged cfg hL
    · dsimp only
      split
      · exact specInv_fresh cfg hL
      · split
        · exact specInv_fresh cfg hL
        · exact specInv_counted cfg _ _
  · unfold redisConsume
    split
    · exact specInv_uncharged cfg hL
    · split
      · exact specInv_uncharged cfg hL
      · dsimp only
        exact specInv_counted cfg _ _
  · unfold memGetState
    dsimp only
    split
    · exact stateInv_zero cfg hL
    · split
      · exact stateInv_zero cfg hL
      · exact stateInv_counted cfg _ _
  · unfold redisGetState
    split
    · unfold unchargedResult
      exact stateInv_zero cfg hL
    · dsimp only
      split
      · exact stateInv_counted cfg _ _
      · dsimp only
        exact stateInv_counted cfg _ _

/-- Witness for C4 amended, at limit 3 with a live record of count 3 and a
reachable store holding one expired event. -/
theorem C4_witness :
    (1 : Int) ≤ cfgA.maxRequests ∧
    (specResultInv (memConsume cfgA memS3 "k" 5).2 ∧
     specResultInv (redisConsume cfgA (some storeOld) "k" 5).2 ∧
     stateResultInv (memGetState cfgA memS3 "k" 5).2 ∧
     stateResultInv (redisGetState cfgA (some storeOld) "k" 5).2) :=
  ⟨by decide, C4_result_invariants cfgA memS3 (some storeOld) "k" 5 (by decide)⟩

/-! ## C1 — atomic sliding-log consume on the shared backend -/

/-- C1: for the shared backend with skip absent or false and the store
reachable, `consume(key)` performs remove-old / count / insert / set-expiry
as one store transition (the single Lua script step of the embedding) and
returns a charged count of (events strictly within the trailing window
ending now) + 1, with `allowed = (current ≤ limit)`, the new event recorded
at score `now`, and the per-key collection's expiry set to `windowMs`. -/
theorem C1_redis_consume_atomic (cfg : RLConfig) (store : RedisStore)
    (key : String) (now : Int)
    (hskip : skipApplies cfg key = false)
    (hvalid : ∀ e ∈ storedEvents store (getPrefixedKey cfg key),
      0 ≤ e ∧ e ≤ now) :
    redisConsume cfg (some store) key now =
      (some (storeSet store (getPrefixedKey cfg key)
          { events :=
              now :: eventsInWindow now cfg.windowMs
                (storedEvents store (getPrefixedKey cfg key)),
            pttl := cfg.windowMs }),
       { allowed :=
           decide (((eventsInWindow now cfg.windowMs
               (storedEvents store (getPrefixedKey cfg key))).length : Int)
               + 1 ≤ cfg.maxRequests),
         current :=
           ((eventsInWindow now cfg.windowMs
               (storedEvents store (getPrefixedKey cfg key))).length : Int) + 1,
         limit := cfg.maxRequests,
         remaining :=
           jsMax 0 (cfg.maxRequests -
             (((eventsInWindow now cfg.windowMs
                 (storedEvents store (getPrefixedKey cfg key))).length : Int)
                 + 1)),
         resetTime := cfg.windowMs }) := by
  unfold redisConsume
  rw [hskip]
  simp only [Bool.false_eq_true, if_false]
  rw [zremUpTo_eq_eventsInWindow cfg.windowMs now _ hvalid]

/-- Witness for C1: two stored events, 900 (inside the window `(200, 1200]`)
and 100 (expired); the consume at instant 1200 charges `current = 2`,
stores the new event at 1200 beside 900, and refreshes the expiry. -/
theorem C1_witness :
    skipApplies cfgA "k" = false ∧
    ((storedEvents storeMixed (getPrefixedKey cfgA "k")).all
      (fun e => decide (0 ≤ e) && decide (e ≤ (1200 : Int)))) = true ∧
    redisConsume cfgA (some storeMixed) "k" 1200 =
      (some (storeSet storeMixed (getPrefixedKey cfgA "k")
          { events :=
              1200 :: eventsInWindow 1200 cfgA.windowMs
                (storedEvents storeMixed (getPrefixedKey cfgA "k")),
            pttl := cfgA.windowMs }),
       { allowed :=
           decide (((eventsInWindow 1200 cfgA.windowMs
               (storedEvents storeMixed (getPrefixedKey cfgA "k"))).length : Int)
               + 1 ≤ cfgA.maxRequests),
         current :=
           ((eventsInWindow 1200 cfgA.windowMs
               (storedEvents storeMixed (getPrefixedKey cfgA "k"))).length : Int)
               + 1,
         limit := cfgA.maxRequests,
         remaining :=
           jsMax 0 (cfgA.maxRequests -
             (((eventsInWindow 1200 cfgA.windowMs
                 (storedEvents storeMixed (getPrefixedKey cfgA "k"))).length : Int)
                 + 1)),
         resetTime := cfgA.windowMs }) :=
  ⟨by decide, by decide,
   C1_redis_consume_atomic cfgA storeMixed "k" 1200 (by decide)
     (by decide)⟩

/-! ## C7 — rejection shape of the admission gate, corrected -/

/-- Counterexample to C7 as stated: the claim's only side condition is
that the request-level skip did not apply, but the gate's rejection shape
fails in two configurations the claim quantifies over.  First, with a
configured `onLimitReached` callback that throws, the blocked request is
passed through (`next()` with no error) and the response carries only the
three informational headers — no `Retry-After`, no 429.  Second, with
headers disabled, the rejection carries only `Retry-After` — the
X-RateLimit headers the claim requires are absent. -/
theorem C7_counterexample :
    ((rateLimitMw mwDefaults none (Except.ok rLimited) (some true) 2000).2 =
        MwOutcome.pass ∧
     (rateLimitMw mwDefaults none (Except.ok rLimited) (some true) 2000).1 =
      [(hLimit, rLimited.limit), (hRemaining, rLimited.remaining),
       (hReset, 2000 + rLimited.resetTime)]) ∧
    (rateLimitMw mwNoHeaders none (Except.ok rLimited) none 2000).1 =
      [(hRetryAfter, jsCeilDiv1000 rLimited.resetTime)] := by
  decide

/-- C7 amended: when the request-level skip does not apply, headers are
enabled (the default), the `onLimitReached` callback is absent or completes
normally, and the consume result has `allowed = false`, the gate sets the
three rate-limit headers, a `Retry-After` of `ceil(resetTime / 1000)`
seconds, and rejects with a 429 error whose message is the configured one
(default "Too many requests, please try again later") and whose details
are `{limit, current, resetTime}`.  (A throwing callback aborts the
rejection — see the C6 analysis — and disabled headers drop the
X-RateLimit headers; both carve-outs are forced by the counterexample.) -/
theorem C7_reject_shape (opts : MwOptions) (skipReq : Option Bool)
    (r : RateLimitResult) (cb : CbBehaviour) (now : Int)
    (hskipR : skipReq ≠ some true)
    (hinc : opts.includeHeaders = true)
    (hcb : cb ≠ some true)
    (hallowed : r.allowed = false) :
    rateLimitMw opts skipReq (Except.ok r) cb now =
      ([(hLimit, r.limit), (hRemaining, r.remaining),
        (hReset, now + r.resetTime),
        (hRetryAfter, jsCeilDiv1000 r.resetTime)],
       MwOutcome.reject
         { status := 429,
           message := opts.message.getD defaultLimitMessage,
           dataLimit := r.limit, dataCurrent := r.current,
           dataResetTime := r.resetTime }) := by
  have hb : skipReq = none ∨ skipReq = some false := by
    rcases skipReq with _ | b
    · exact Or.inl rfl
    · cases b
      · exact Or.inr rfl
      · exact absurd rfl hskipR
  have hc : cb = none ∨ cb = some false := by
    rcases cb with _ | c
    · exact Or.inl rfl
    · cases c
      · exact Or.inr rfl
      · exact absurd rfl hcb
  rcases hb with hb | hb <;> rcases hc with hc | hc <;> subst hb <;> subst hc <;>
    simp [rateLimitMw, hinc, hallowed]

/-- Witness for C7: all-default options, no request skip, no callback, over
the blocked result `rLimited` (4 of 3, 500 ms to reset): the gate emits the
four headers (`Retry-After` of 1 second) and rejects with the default
message and details. -/
theorem C7_witness :
    (none : Option Bool) ≠ some true ∧
    mwDefaults.includeHeaders = true ∧
    (none : CbBehaviour) ≠ some true ∧
    rLimited.allowed = false ∧
    rateLimitMw mwDefaults none (Except.ok rLimited) none 1000 =
      ([(hLimit, rLimited.limit), (hRemaining, rLimited.remaining),
        (hReset, 1000 + rLimited.resetTime),
        (hRetryAfter, jsCeilDiv1000 rLimited.resetTime)],
       MwOutcome.reject
         { status := 429,
           message := mwDefaults.message.getD defaultLimitMessage,
           dataLimit := rLimited.limit, dataCurrent := rLimited.current,
           dataResetTime := rLimited.resetTime }) :=
  ⟨by decide, rfl, by decide, rfl,
   C7_reject_shape mwDefaults none rLimited none 1000 (by decide) rfl
     (by decide) rfl⟩

/-! ## C6 — callback failures and the reject decision, corrected -/

/-- Counterexample to C6 as stated: with a blocked result and an
`onLimitReached` callback that throws, the middleware ends in `next()`
with no error — the request is allowed through, not rejected with the
structured 429 error.  (The thrown callback error escapes the `try` before
`Boom.tooManyRequests` is thrown, and the `catch` treats a non-Boom error
as an internal failure: log and pass.) -/
theorem C6_counterexample :
    (rateLimitMw mwDefaults none (Except.ok rLimited) (some true) 1000).2 =
      MwOutcome.pass := by
  decide

/-- C6 amended: a failure thrown by the `onLimitReached` callback aborts
the rejection: whenever the consume result has `allowed = false`, the
request-level skip does not apply, and the configured callback throws, the
gate passes the request through (`next()` with no error) and never sets
the `Retry-After` header — only the three informational headers (when
enabled) are present. -/
theorem C6_callback_failure_allows_through (opts : MwOptions)
    (skipReq : Option Bool) (r : RateLimitResult) (now : Int)
    (hskipR : skipReq ≠ some true)
    (hallowed : r.allowed = false) :
    rateLimitMw opts skipReq (Except.ok r) (some true) now =
      ((if opts.includeHeaders then
          [(hLimit, r.limit), (hRemaining, r.remaining),
           (hReset, now + r.resetTime)]
        else []),
       MwOutcome.pass) := by
  have hb : skipReq = none ∨ skipReq = some false := by
    rcases skipReq with _ | b
    · exact Or.inl rfl
    · cases b
      · exact Or.inr rfl
      · exact absurd rfl hskipR
  rcases hb with hb | hb <;> subst hb <;>
    simp [rateLimitMw, hallowed]

/-- Witness for the amended C6: default options, no request skip, blocked
result, throwing callback — outcome is pass with only the three
informational headers. -/
theorem C6_witness :
    (none : Option Bool) ≠ some true ∧
    rLimited.allowed = false ∧
    rateLimitMw mwDefaults none (Except.ok rLimited) (some true) 1000 =
      ((if mwDefaults.includeHeaders then
          [(hLimit, rLimited.limit), (hRemaining, rLimited.remaining),
           (hReset, 1000 + rLimited.resetTime)]
        else []),
       MwOutcome.pass) :=
  ⟨by decide, rfl,
   C6_callback_failure_allows_through mwDefaults none rLimited 1000
     (by decide) rfl⟩

/-! ## C9 — getState counts without charging, corrected -/

theorem redisGetState_eval_absent (cfg : RLConfig) (store : RedisStore)
    (key : String) (now : Int)
    (h : store (getPrefixedKey cfg key) = none) :
    redisGetState cfg (some store) key now =
      (some store,
       { allowed := decide ((0 : Int) < cfg.maxRequests), current := 0,
         limit := cfg.maxRequests, remaining := jsMax 0 (cfg.maxRequests - 0),
         resetTime := 0 }) := by
  unfold redisGetState
  dsimp only
  rw [h]

theorem redisGetState_eval_entry (cfg : RLConfig) (store : RedisStore)
    (key : String) (now : Int) (entry : RedisEntry)
    (h : store (getPrefixedKey cfg key) = some entry) :
    redisGetState cfg (some store) key now =
      (some (if (zremUpTo (now - cfg.windowMs) entry.events).isEmpty then
          storeDelete store (getPrefixedKey cfg key)
        else
          storeSet store (getPrefixedKey cfg key)
            { events := zremUpTo (now - cfg.windowMs) entry.events,
              pttl := entry.pttl }),
       { allowed :=
           decide (((zremUpTo (now - cfg.windowMs) entry.events).length : Int)
             < cfg.maxRequests),
         current := ((zremUpTo (now - cfg.windowMs) entry.events).length : Int),
         limit := cfg.maxRequests,
         remaining :=
           jsMax 0 (cfg.maxRequests -
             ((zremUpTo (now - cfg.windowMs) entry.events).length : Int)),
         resetTime :=
           match (zremUpTo (now - cfg.windowMs) entry.events).min? with
           | some oldest => jsMax 0 (cfg.windowMs - (now - oldest))
           | none => 0 }) := by
  unfold redisGetState
  dsimp only
  rw [h]

theorem zremUpTo_idem (ws : Int) (es : List Int) :
    zremUpTo ws (zremUpTo ws es) = zremUpTo ws es := by
  unfold zremUpTo
  exact List.filter_eq_self.mpr (fun a ha => (List.mem_filter.mp ha).2)

theorem storeSet_storeSet (s : RedisStore) (k : String) (v w : RedisEntry) :
    storeSet (storeSet s k v) k w = storeSet s k w := by
  funext k'
  unfold storeSet
  by_cases hk : k' = k <;> simp [hk]

/-- Repeating `RedisRateLimiter.getState` at the same instant is stable:
the second call returns the same connection state and the same result. -/
theorem redisGetState_stable (cfg : RLConfig) (conn : RedisConn)
    (key : String) (now : Int) :
    redisGetState cfg (redisGetState cfg conn key now).1 key now =
      redisGetState cfg conn key now := by
  cases conn with
  | none => rfl
  | some store =>
      cases h : store (getPrefixedKey cfg key) with
      | none =>
          rw [redisGetState_eval_absent cfg store key now h]
          exact redisGetState_eval_absent cfg store key now h
      | some entry =>
          rw [redisGetState_eval_entry cfg store key now entry h]
          by_cases he : (zremUpTo (now - cfg.windowMs) entry.events).isEmpty
          · rw [if_pos he]
            have hkept : zremUpTo (now - cfg.windowMs) entry.events = [] :=
              List.isEmpty_iff.mp he
            have habs :
                storeDelete store (getPrefixedKey cfg key)
                  (getPrefixedKey cfg key) = none := by
              unfold storeDelete
              simp
            rw [redisGetState_eval_absent cfg _ key now habs]
            rw [hkept]
            rfl
          · rw [if_neg he]
            have hset :
                storeSet store (getPrefixedKey cfg key)
                  { events := zremUpTo (now - cfg.windowMs) entry.events,
                    pttl := entry.pttl } (getPrefixedKey cfg key) =
                some
                  { events := zremUpTo (now - cfg.windowMs) entry.events,
                    pttl := entry.pttl } := by
              unfold storeSet
              simp
            rw [redisGetState_eval_entry cfg _ key now _ hset]
            dsimp only
            rw [zremUpTo_idem]
            rw [if_neg he, storeSet_storeSet]

theorem redisGetState_iter_stable (cfg : RLConfig) (conn : RedisConn)
    (key : String) (now : Int) :
    ∀ n, redisGetState cfg (redisGetStateIter cfg key now conn n) key now =
      redisGetState cfg conn key now := by
  intro n
  induction n with
  | zero => rfl
  | succ m ih =>
      show redisGetState cfg
        (redisGetState cfg (redisGetStateIter cfg key now conn m) key now).1
        key now = _
      rw [ih]
      exact redisGetState_stable cfg conn key now

/-- Counterexample to C9 as stated: `RedisRateLimiter.getState` does
mutate the stored state.  With one expired event recorded under the key,
the `ZREMRANGEBYSCORE` it issues removes that member (and Redis drops the
then-empty set), so the keyspace after `getState` differs from the
keyspace before it. -/
theorem C9_counterexample :
    (redisGetState cfgA (some storeOld) "k" 2000).1 ≠ some storeOld := by
  intro h
  have h1 : (redisGetState cfgA (some storeOld) "k" 2000).1 =
      some (storeDelete storeOld "rl:k") := by rfl
  rw [h1] at h
  have h2 : storeDelete storeOld "rl:k" = storeOld := Option.some.inj h
  have h3 := congrFun h2 "rl:k"
  simp [storeDelete, storeOld] at h3

/-- C9 amended: `getState` registers no new event and performs the same
counting as `consume` minus the charge — on either backend (store
reachable, skip not applying) `consume` reports exactly one more than
`getState` at the same instant.  The in-memory `getState` leaves the map
untouched; the Redis `getState` only purges expired members (the remaining
member list of every key is a sublist of what was stored), and repeated
calls in a row all return the same result. -/
theorem C9_getState_noncharging (cfg : RLConfig) (s : MemState)
    (store : RedisStore) (conn : RedisConn) (key k' : String) (now : Int)
    (n : Nat) (hskip : skipApplies cfg key = false) :
    (memGetState cfg s key now).1 = s ∧
    (memConsume cfg s key now).2.current
      = (memGetState cfg s key now).2.current + 1 ∧
    (redisConsume cfg (some store) key now).2.current
      = (redisGetState cfg (some store) key now).2.current + 1 ∧
    (connEvents (redisGetState cfg (some store) key now).1 k').Sublist
      (storedEvents store k') ∧
    redisGetStateNth cfg key now conn n = redisGetStateNth cfg key now conn 0 := by
  refine ⟨memGetState_fst cfg s key now, ?_, ?_, ?_, ?_⟩
  · unfold memConsume memGetState
    rw [hskip]
    simp only [Bool.false_eq_true, if_false]
    cases h : s (getPrefixedKey cfg key) with
    | none =>
        norm_num
    | some record =>
        dsimp only
        by_cases hw : now - record.windowStart ≥ cfg.windowMs
        · rw [if_pos hw, if_pos hw]
          norm_num
        · rw [if_neg hw, if_neg hw]
  · unfold redisConsume redisGetState storedEvents
    rw [hskip]
    simp only [Bool.false_eq_true, if_false]
    cases h : store (getPrefixedKey cfg key) with
    | none => norm_num [zremUpTo]
    | some entry => rfl
  · cases h : store (getPrefixedKey cfg key) with
    | none =>
        rw [redisGetState_eval_absent cfg store key now h]
        exact List.Sublist.refl _
    | some entry =>
        rw [redisGetState_eval_entry cfg store key now entry h]
        unfold connEvents
        dsimp only
        by_cases he : (zremUpTo (now - cfg.windowMs) entry.events).isEmpty
        · rw [if_pos he]
          unfold storedEvents storeDelete
          by_cases hk : k' = getPrefixedKey cfg key
          · simp [hk]
          · simp [hk]
        · rw [if_neg he]
          unfold storedEvents storeSet
          by_cases hk : k' = getPrefixedKey cfg key
          · subst hk
            simp only [if_pos rfl]
            rw [h]
            unfold zremUpTo
            exact List.filter_sublist _
          · simp [hk]
  · unfold redisGetStateNth
    rw [redisGetState_iter_stable cfg conn key now n]
    rfl

/-- Witness for the amended C9: budget 3, one live record of 3 in memory,
one expired event in Redis, 4 repeated getState calls. -/
theorem C9_witness :
    skipApplies cfgA "k" = false ∧
    ((memGetState cfgA memS3 "k" 2000).1 = memS3 ∧
     (memConsume cfgA memS3 "k" 2000).2.current
       = (memGetState cfgA memS3 "k" 2000).2.current + 1 ∧
     (redisConsume cfgA (some storeOld) "k" 2000).2.current
       = (redisGetState cfgA (some storeOld) "k" 2000).2.current + 1 ∧
     (connEvents (redisGetState cfgA (some storeOld) "k" 2000).1
         "rl:k").Sublist (storedEvents storeOld "rl:k") ∧
     redisGetStateNth cfgA "k" 2000 (some storeOld) 4
       = redisGetStateNth cfgA "k" 2000 (some storeOld) 0) :=
  ⟨by decide,
   C9_getState_noncharging cfgA memS3 storeOld (some storeOld) "k" "rl:k"
     2000 4 (by decide)⟩

/-! ## C3 — a full window of consumptions, both backends -/

theorem evList_length (t : Nat → Int) : ∀ n, (evList t n).length = n := by
  intro n
  induction n with
  | zero => rfl
  | succ m ih => simp [evList, ih]

theorem evList_mem (t : Nat → Int) :
    ∀ n x, x ∈ evList t n → ∃ j, j < n ∧ x = t j := by
  intro n
  induction n with
  | zero => intro x hx; cases hx
  | succ m ih =>
      intro x hx
      rcases List.mem_cons.mp hx with hx | hx
      · exact ⟨m, Nat.lt_succ_self m, hx⟩
      · obtain ⟨j, hj, hxe⟩ := ih x hx
        exact ⟨j, Nat.lt_succ_of_lt hj, hxe⟩

theorem zremUpTo_keep_all (ws : Int) :
    ∀ es : List Int, (∀ e ∈ es, ws < e) → zremUpTo ws es = es := by
  intro es h
  unfold zremUpTo
  apply List.filter_eq_self.mpr
  intro a ha
  have := h a ha
  simp only [Bool.not_eq_true', Bool.and_eq_false_iff, decide_eq_false_iff_not]
  right
  omega

/-- Storage shape of the in-memory limiter after `n` consumes against a
fresh key, all inside one window anchored at `t 0`. -/
theorem memConsumeIter_spec (cfg : RLConfig) (key : String) (t : Nat → Int)
    (s : MemState) (hskip : skipApplies cfg key = false)
    (hempty : s (getPrefixedKey cfg key) = none) :
    ∀ n : Nat, (∀ j, j < n → t 0 ≤ t j ∧ t j - t 0 < cfg.windowMs) →
      memConsumeIter cfg key t s n (getPrefixedKey cfg key) =
        (if n = 0 then none
         else some { count := (n : Int), windowStart := t 0 }) := by
  intro n
  induction n with
  | zero => intro _; simpa using hempty
  | succ m ih =>
      intro ht
      have ihm := ih (fun j hj => ht j (Nat.lt_succ_of_lt hj))
      show (memConsume cfg (memConsumeIter cfg key t s m) key (t m)).1
          (getPrefixedKey cfg key) = _
      unfold memConsume
      rw [hskip]
      simp only [Bool.false_eq_true, if_false]
      by_cases hm : m = 0
      · subst hm
        rw [if_pos rfl] at ihm
        rw [ihm]
        dsimp only
        unfold memSet
        simp
      · rw [if_neg hm] at ihm
        rw [ihm]
        dsimp only
        have hw := ht m (Nat.lt_succ_self m)
        rw [if_neg (by omega : ¬ t m - t 0 ≥ cfg.windowMs)]
        dsimp only
        unfold memSet
        simp only [if_pos rfl, if_neg (Nat.succ_ne_zero m)]
        congr 1

/-- Result of the `(n+1)`-th in-memory consume against a fresh key inside
one window: the fresh-window result for the first call, the in-place
increment for every later call. -/
theorem memConsumeNth_eq (cfg : RLConfig) (key : String) (t : Nat → Int)
    (s : MemState) (hskip : skipApplies cfg key = false)
    (hempty : s (getPrefixedKey cfg key) = none)
    (n : Nat) (ht : ∀ j, j ≤ n → t 0 ≤ t j ∧ t j - t 0 < cfg.windowMs) :
    memConsumeNth cfg key t s n =
      (if n = 0 then
        { allowed := true, current := 1, limit := cfg.maxRequests,
          remaining := cfg.maxRequests - 1, resetTime := cfg.windowMs }
       else
        { allowed := decide ((n : Int) + 1 ≤ cfg.maxRequests),
          current := (n : Int) + 1, limit := cfg.maxRequests,
          remaining := jsMax 0 (cfg.maxRequests - ((n : Int) + 1)),
          resetTime := cfg.windowMs - (t n - t 0) }) := by
  have hiter := memConsumeIter_spec cfg key t s hskip hempty n
    (fun j hj => ht j (Nat.le_of_lt hj))
  unfold memConsumeNth
  unfold memConsume
  rw [hskip]
  simp only [Bool.false_eq_true, if_false]
  rw [hiter]
  by_cases hn : n = 0
  · subst hn
    rfl
  · rw [if_neg hn, if_neg hn]
    dsimp only
    have hw := ht n (Nat.le_refl n)
    rw [if_neg (by omega : ¬ t n - t 0 ≥ cfg.windowMs)]

/-- Keyspace shape of the shared limiter after `n` consumes against a
fresh key, all inside one window anchored at `t 0`: the per-key set holds
exactly the `n` event timestamps and the refreshed expiry. -/
theorem redisConsumeIter_spec (cfg : RLConfig) (key : String) (t : Nat → Int)
    (store : RedisStore) (hskip : skipApplies cfg key = false)
    (hempty : store (getPrefixedKey cfg key) = none) :
    ∀ n : Nat, (∀ j, j ≤ n → t 0 ≤ t j ∧ t j - t 0 < cfg.windowMs) →
      ∃ sn : RedisStore,
        redisConsumeIter cfg key t (some store) n = some sn ∧
        sn (getPrefixedKey cfg key) =
          (if n = 0 then none
           else some { events := evList t n, pttl := cfg.windowMs }) := by
  intro n
  induction n with
  | zero => intro _; exact ⟨store, rfl, by simpa using hempty⟩
  | succ m ih =>
      intro ht
      obtain ⟨sm, hsm, hpk⟩ := ih (fun j hj => ht j (Nat.le_succ_of_le hj))
      have hkept :
          zremUpTo (t m - cfg.windowMs) (storedEvents sm (getPrefixedKey cfg key))
            = evList t m := by
        have hev : storedEvents sm (getPrefixedKey cfg key) = evList t m := by
          unfold storedEvents
          rw [hpk]
          by_cases hm : m = 0
          · subst hm; rfl
          · rw [if_neg hm]
        rw [hev]
        apply zremUpTo_keep_all
        intro e he
        obtain ⟨j, hj, hje⟩ := evList_mem t m e he
        have h0 := ht 0 (Nat.zero_le _)
        have hjt := ht j (Nat.le_of_lt (Nat.lt_succ_of_lt hj))
        have hmt := ht m (Nat.le_succ m)
        subst hje
        omega
      refine ⟨storeSet sm (getPrefixedKey cfg key)
        { events := t m :: evList t m, pttl := cfg.windowMs }, ?_, ?_⟩
      · show (redisConsume cfg (redisConsumeIter cfg key t (some store) m)
            key (t m)).1 = _
        rw [hsm]
        unfold redisConsume
        rw [hskip]
        simp only [Bool.false_eq_true, if_false]
        rw [hkept]
      · unfold storeSet
        simp [evList]

/-- Result of the `(n+1)`-th shared-backend consume against a fresh key
inside one window: uniformly `current = n + 1`. -/
theorem redisConsumeNth_eq (cfg : RLConfig) (key : String) (t : Nat → Int)
    (store : RedisStore) (hskip : skipApplies cfg key = false)
    (hempty : store (getPrefixedKey cfg key) = none)
    (n : Nat) (ht : ∀ j, j ≤ n → t 0 ≤ t j ∧ t j - t 0 < cfg.windowMs) :
    redisConsumeNth cfg key t (some store) n =
      { allowed := decide ((n : Int) + 1 ≤ cfg.maxRequests),
        current := (n : Int) + 1, limit := cfg.maxRequests,
        remaining := jsMax 0 (cfg.maxRequests - ((n : Int) + 1)),
        resetTime := cfg.windowMs } := by
  obtain ⟨sn, hsn, hpk⟩ := redisConsumeIter_spec cfg key t store hskip hempty n ht
  have hkept :
      zremUpTo (t n - cfg.windowMs) (storedEvents sn (getPrefixedKey cfg key))
        = evList t n := by
    have hev : storedEvents sn (getPrefixedKey cfg key) = evList t n := by
      unfold storedEvents
      rw [hpk]
      by_cases hn : n = 0
      · subst hn; rfl
      · rw [if_neg hn]
    rw [hev]
    apply zremUpTo_keep_all
    intro e he
    obtain ⟨j, hj, hje⟩ := evList_mem t n e he
    have h0 := ht 0 (Nat.zero_le _)
    have hjt := ht j (Nat.le_of_lt hj)
    have hnt := ht n (Nat.le_refl n)
    subst hje
    omega
  unfold redisConsumeNth
  rw [hsn]
  unfold redisConsume
  rw [hskip]
  simp only [Bool.false_eq_true, if_false]
  rw [hkept, evList_length t n]

/-- C3: for both backends, a fresh key, and `L + 1` consume calls all
inside one window (skip not applying): the `i`-th call (`1 ≤ i ≤ L`)
returns `current = i`, `allowed = true`, `remaining = L - i`, and the
`(L+1)`-th call returns `current = L + 1`, `allowed = false`,
`remaining = 0`. -/
theorem C3_full_window (cfg : RLConfig) (s : MemState) (store : RedisStore)
    (key : String) (t : Nat → Int) (L i : Nat)
    (hL : 1 ≤ L) (hmax : cfg.maxRequests = (L : Int))
    (hskip : skipApplies cfg key = false)
    (hmem : s (getPrefixedKey cfg key) = none)
    (hstore : store (getPrefixedKey cfg key) = none)
    (htimes : ∀ j, j ≤ L → t 0 ≤ t j ∧ t j - t 0 < cfg.windowMs)
    (hi1 : 1 ≤ i) (hiL : i ≤ L) :
    ((memConsumeNth cfg key t s (i - 1)).current = (i : Int) ∧
     (memConsumeNth cfg key t s (i - 1)).allowed = true ∧
     (memConsumeNth cfg key t s (i - 1)).remaining = (L : Int) - (i : Int)) ∧
    ((redisConsumeNth cfg key t (some store) (i - 1)).current = (i : Int) ∧
     (redisConsumeNth cfg key t (some store) (i - 1)).allowed = true ∧
     (redisConsumeNth cfg key t (some store) (i - 1)).remaining
       = (L : Int) - (i : Int)) ∧
    ((memConsumeNth cfg key t s L).current = (L : Int) + 1 ∧
     (memConsumeNth cfg key t s L).allowed = false ∧
     (memConsumeNth cfg key t s L).remaining = 0) ∧
    ((redisConsumeNth cfg key t (some store) L).current = (L : Int) + 1 ∧
     (redisConsumeNth cfg key t (some store) L).allowed = false ∧
     (redisConsumeNth cfg key t (some store) L).remaining = 0) := by
  have hti : ∀ j, j ≤ i - 1 → t 0 ≤ t j ∧ t j - t 0 < cfg.windowMs :=
    fun j hj => htimes j (by omega)
  rw [memConsumeNth_eq cfg key t s hskip hmem (i - 1) hti,
      memConsumeNth_eq cfg key t s hskip hmem L htimes,
      redisConsumeNth_eq cfg key t store hskip hstore (i - 1) hti,
      redisConsumeNth_eq cfg key t store hskip hstore L htimes,
      hmax]
  rw [if_neg (by omega : ¬ L = 0)]
  by_cases hi0 : i - 1 = 0
  · rw [if_pos hi0]
    refine ⟨⟨?_, ?_, ?_⟩, ⟨?_, ?_, ?_⟩, ⟨?_, ?_, ?_⟩, ⟨?_, ?_, ?_⟩⟩ <;>
      first
        | rfl
        | omega
        | (simp only [decide_eq_true_eq]; omega)
        | (simp only [decide_eq_false_iff_not]; omega)
        | (dsimp only; omega)
        | (dsimp only; unfold jsMax; split <;> omega)
  · rw [if_neg hi0]
    refine ⟨⟨?_, ?_, ?_⟩, ⟨?_, ?_, ?_⟩, ⟨?_, ?_, ?_⟩, ⟨?_, ?_, ?_⟩⟩ <;>
      first
        | rfl
        | omega
        | (simp only [decide_eq_true_eq]; omega)
        | (simp only [decide_eq_false_iff_not]; omega)
        | (dsimp only; omega)
        | (dsimp only; unfold jsMax; split <;> omega)

/-- Witness for C3: limit 3, call instants 0, 1, 2, 3 (window 1000 ms),
fresh key on both backends; the 2nd call charges 2 of 3, the 4th is
blocked at `current = 4`. -/
theorem C3_witness :
    (1 : Nat) ≤ 3 ∧
    cfgA.maxRequests = ((3 : Nat) : Int) ∧
    skipApplies cfgA "k" = false ∧
    memEmpty (getPrefixedKey cfgA "k") = none ∧
    storeEmpty (getPrefixedKey cfgA "k") = none ∧
    (1 : Nat) ≤ 2 ∧ (2 : Nat) ≤ 3 ∧
    (((memConsumeNth cfgA "k" tLin memEmpty (2 - 1)).current = ((2 : Nat) : Int) ∧
      (memConsumeNth cfgA "k" tLin memEmpty (2 - 1)).allowed = true ∧
      (memConsumeNth cfgA "k" tLin memEmpty (2 - 1)).remaining
        = ((3 : Nat) : Int) - ((2 : Nat) : Int)) ∧
     ((redisConsumeNth cfgA "k" tLin (some storeEmpty) (2 - 1)).current
        = ((2 : Nat) : Int) ∧
      (redisConsumeNth cfgA "k" tLin (some storeEmpty) (2 - 1)).allowed = true ∧
      (redisConsumeNth cfgA "k" tLin (some storeEmpty) (2 - 1)).remaining
        = ((3 : Nat) : Int) - ((2 : Nat) : Int)) ∧
     ((memConsumeNth cfgA "k" tLin memEmpty 3).current = ((3 : Nat) : Int) + 1 ∧
      (memConsumeNth cfgA "k" tLin memEmpty 3).allowed = false ∧
      (memConsumeNth cfgA "k" tLin memEmpty 3).remaining = 0) ∧
     ((redisConsumeNth cfgA "k" tLin (some storeEmpty) 3).current
        = ((3 : Nat) : Int) + 1 ∧
      (redisConsumeNth cfgA "k" tLin (some storeEmpty) 3).allowed = false ∧
      (redisConsumeNth cfgA "k" tLin (some storeEmpty) 3).remaining = 0)) :=
  ⟨by decide, by decide, by decide, rfl, rfl, by decide, by decide,
   C3_full_window cfgA memEmpty storeEmpty "k" tLin 3 2
     (by decide) (by decide) (by decide) rfl rfl
     (by
       intro j hj
       unfold tLin
       constructor
       · omega
       · show (j : Int) - 0 < cfgA.windowMs
         have : cfgA.windowMs = 1000 := rfl
         omega)
     (by decide) (by decide)⟩

/-! ## C10 — expired records are observationally absent; cleanup is sound -/

theorem liveRec_after (cfg : RLConfig) (t now : Int) (h : t ≤ now)
    (r : Option RequestRecord) :
    liveRec cfg now (liveRec cfg t r) = liveRec cfg now r := by
  cases r with
  | none => rfl
  | some record =>
      by_cases hw : t - record.windowStart ≥ cfg.windowMs
      · have h1 : liveRec cfg t (some record) = none := by
          unfold liveRec
          dsimp only
          rw [if_pos hw]
        have h2 : liveRec cfg now (some record) = none := by
          unfold liveRec
          dsimp only
          rw [if_pos (by omega : now - record.windowStart ≥ cfg.windowMs)]
        rw [h1, h2]
        rfl
      · have h1 : liveRec cfg t (some record) = some record := by
          unfold liveRec
          dsimp only
          rw [if_neg hw]
        rw [h1]

theorem memCleanup_eq_live (cfg : RLConfig) (s : MemState) (t : Int)
    (k : String) : memCleanup cfg s t k = liveRec cfg t (s k) := by
  unfold memCleanup liveRec
  cases s k <;> rfl

theorem memCleanup_liveEquiv (cfg : RLConfig) (s : MemState) (t : Int) :
    liveEquiv cfg t (memCleanup cfg s t) s := by
  intro k now hn
  rw [memCleanup_eq_live]
  exact liveRec_after cfg t now hn (s k)

/-- `MemoryRateLimiter.getState` only depends on the live view of the
stored record. -/
theorem memGetState_snd_live (cfg : RLConfig) (s : MemState) (key : String)
    (now : Int) :
    (memGetState cfg s key now).2 =
      stateResult cfg now (liveRec cfg now (s (getPrefixedKey cfg key))) := by
  cases h : s (getPrefixedKey cfg key) with
  | none => simp only [memGetState, stateResult, liveRec, h]
  | some record =>
      by_cases hw : now - record.windowStart ≥ cfg.windowMs
      · simp only [memGetState, stateResult, liveRec, h, if_pos hw]
      · simp only [memGetState, stateResult, liveRec, h, if_neg hw]

/-- Past the skip check, `MemoryRateLimiter.consume` writes the record and
returns the result both determined by the live view of the stored
record. -/
theorem memConsume_live (cfg : RLConfig) (s : MemState) (key : String)
    (now : Int) (hskip : skipApplies cfg key = false) :
    memConsume cfg s key now =
      (memSet s (getPrefixedKey cfg key)
        (consumeRecord now (liveRec cfg now (s (getPrefixedKey cfg key)))),
       consumeResult cfg now
        (liveRec cfg now (s (getPrefixedKey cfg key)))) := by
  cases h : s (getPrefixedKey cfg key) with
  | none =>
      simp only [memConsume, consumeRecord, consumeResult, liveRec, h, hskip,
        Bool.false_eq_true, if_false]
  | some record =>
      by_cases hw : now - record.windowStart ≥ cfg.windowMs
      · simp only [memConsume, consumeRecord, consumeResult, liveRec, h, hskip,
          Bool.false_eq_true, if_false, if_pos hw]
      · simp only [memConsume, consumeRecord, consumeResult, liveRec, h, hskip,
          Bool.false_eq_true, if_false, if_neg hw]

theorem liveEquiv_memSet (cfg : RLConfig) (t : Int) (s₁ s₂ : MemState)
    (k : String) (v : RequestRecord) (h : liveEquiv cfg t s₁ s₂) :
    liveEquiv cfg t (memSet s₁ k v) (memSet s₂ k v) := by
  intro k' now hn
  unfold memSet
  by_cases hk : k' = k
  · rw [if_pos hk, if_pos hk]
  · rw [if_neg hk, if_neg hk]
    exact h k' now hn

/-- Storages agreeing on all live views from `t` on are indistinguishable
to one operation run at an instant ≥ `t`, and stay in agreement. -/
theorem memStep_congr (cfg : RLConfig) (t : Int) (s₁ s₂ : MemState)
    (h : liveEquiv cfg t s₁ s₂) (op : RLOp) (hop : t ≤ op.time) :
    (memStep cfg s₁ op).2 = (memStep cfg s₂ op).2 ∧
      liveEquiv cfg t (memStep cfg s₁ op).1 (memStep cfg s₂ op).1 := by
  cases op with
  | getStateOp key now =>
      refine ⟨?_, ?_⟩
      · show (memGetState cfg s₁ key now).2 = (memGetState cfg s₂ key now).2
        rw [memGetState_snd_live, memGetState_snd_live,
          h (getPrefixedKey cfg key) now hop]
      · show liveEquiv cfg t (memGetState cfg s₁ key now).1
          (memGetState cfg s₂ key now).1
        rw [memGetState_fst, memGetState_fst]
        exact h
  | consumeOp key now =>
      cases hs : skipApplies cfg key with
      | true =>
          have e1 : memConsume cfg s₁ key now = (s₁, unchargedResult cfg) := by
            unfold memConsume
            rw [hs]
            rfl
          have e2 : memConsume cfg s₂ key now = (s₂, unchargedResult cfg) := by
            unfold memConsume
            rw [hs]
            rfl
          show (memConsume cfg s₁ key now).2 = (memConsume cfg s₂ key now).2 ∧
            liveEquiv cfg t (memConsume cfg s₁ key now).1
              (memConsume cfg s₂ key now).1
          rw [e1, e2]
          exact ⟨rfl, h⟩
      | false =>
          show (memConsume cfg s₁ key now).2 = (memConsume cfg s₂ key now).2 ∧
            liveEquiv cfg t (memConsume cfg s₁ key now).1
              (memConsume cfg s₂ key now).1
          rw [memConsume_live cfg s₁ key now hs, memConsume_live cfg s₂ key now hs,
            h (getPrefixedKey cfg key) now hop]
          exact ⟨rfl, liveEquiv_memSet cfg t s₁ s₂ _ _ h⟩

theorem memRunResults_congr (cfg : RLConfig) (t : Int) :
    ∀ (ops : List RLOp) (s₁ s₂ : MemState), liveEquiv cfg t s₁ s₂ →
      (∀ op ∈ ops, t ≤ op.time) →
      memRunResults cfg s₁ ops = memRunResults cfg s₂ ops := by
  intro ops
  induction ops with
  | nil => intro _ _ _ _; rfl
  | cons op rest ih =>
      intro s₁ s₂ h hops
      have hstep := memStep_congr cfg t s₁ s₂ h op (hops op (by simp))
      unfold memRunResults
      rw [hstep.1, ih _ _ hstep.2 (fun o ho => hops o (by simp [ho]))]

theorem memSet_after_delete (s : MemState) (k : String) (v : RequestRecord) :
    memSet (memDelete s k) k v = memSet s k v := by
  funext k'
  unfold memSet memDelete
  by_cases hk : k' = k
  · rw [if_pos hk, if_pos hk]
  · rw [if_neg hk, if_neg hk, if_neg hk]

/-- C10: a stored record whose window has elapsed is observationally the
same as no record: `getState` returns the absent-key result on both, the
next `consume` behaves identical to a consume on the key-deleted storage
and starts a fresh window with `current = 1`, and evicting expired records
(`cleanup` at instant `tc`) never changes the results of any sequence of
subsequent operations run at instants ≥ `tc`. -/
theorem C10_expired_record_absent (cfg : RLConfig) (s : MemState)
    (key : String) (now tc : Int) (record : RequestRecord) (ops : List RLOp)
    (hrec : s (getPrefixedKey cfg key) = some record)
    (hexp : now - record.windowStart ≥ cfg.windowMs)
    (hskip : skipApplies cfg key = false)
    (hops : ∀ op ∈ ops, tc ≤ op.time) :
    (memGetState cfg s key now).2 =
      { allowed := true, current := 0, limit := cfg.maxRequests,
        remaining := cfg.maxRequests, resetTime := 0 } ∧
    (memGetState cfg (memDelete s (getPrefixedKey cfg key)) key now).2 =
      { allowed := true, current := 0, limit := cfg.maxRequests,
        remaining := cfg.maxRequests, resetTime := 0 } ∧
    memConsume cfg s key now =
      memConsume cfg (memDelete s (getPrefixedKey cfg key)) key now ∧
    (memConsume cfg s key now).2.current = 1 ∧
    memRunResults cfg (memCleanup cfg s tc) ops = memRunResults cfg s ops := by
  have hlive : liveRec cfg now (s (getPrefixedKey cfg key)) = none := by
    unfold liveRec
    rw [hrec]
    dsimp only
    rw [if_pos hexp]
  have hdel : memDelete s (getPrefixedKey cfg key) (getPrefixedKey cfg key)
      = none := by
    unfold memDelete
    rw [if_pos rfl]
  have hlive' : liveRec cfg now
      (memDelete s (getPrefixedKey cfg key) (getPrefixedKey cfg key)) = none := by
    rw [hdel]
    rfl
  refine ⟨?_, ?_, ?_, ?_, ?_⟩
  · rw [memGetState_snd_live, hlive]
    rfl
  · rw [memGetState_snd_live, hlive']
    rfl
  · rw [memConsume_live cfg s key now hskip,
      memConsume_live cfg _ key now hskip, hlive, hlive',
      memSet_after_delete]
  · rw [memConsume_live cfg s key now hskip, hlive]
    rfl
  · exact memRunResults_congr cfg tc ops (memCleanup cfg s tc) s
      (memCleanup_liveEquiv cfg s tc) hops

/-- Witness for C10: budget 3, key `k` saturated since instant 0, window
long over at instant 2000; cleanup at 1500 followed by a getState and a
consume at later instants. -/
theorem C10_witness :
    memS3 (getPrefixedKey cfgA "k") = some { count := 3, windowStart := 0 } ∧
    (2000 : Int) - 0 ≥ cfgA.windowMs ∧
    skipApplies cfgA "k" = false ∧
    ((memGetState cfgA memS3 "k" 2000).2 =
      { allowed := true, current := 0, limit := cfgA.maxRequests,
        remaining := cfgA.maxRequests, resetTime := 0 } ∧
     (memGetState cfgA (memDelete memS3 (getPrefixedKey cfgA "k")) "k" 2000).2 =
      { allowed := true, current := 0, limit := cfgA.maxRequests,
        remaining := cfgA.maxRequests, resetTime := 0 } ∧
     memConsume cfgA memS3 "k" 2000 =
      memConsume cfgA (memDelete memS3 (getPrefixedKey cfgA "k")) "k" 2000 ∧
     (memConsume cfgA memS3 "k" 2000).2.current = 1 ∧
     memRunResults cfgA (memCleanup cfgA memS3 1500)
        [RLOp.getStateOp "k" 1600, RLOp.consumeOp "u" 1700] =
       memRunResults cfgA memS3
        [RLOp.getStateOp "k" 1600, RLOp.consumeOp "u" 1700]) :=
  ⟨by decide, by decide, by decide,
   C10_expired_record_absent cfgA memS3 "k" 2000 1500
     { count := 3, windowStart := 0 }
     [RLOp.getStateOp "k" 1600, RLOp.consumeOp "u" 1700]
     (by decide) (by decide) (by decide) (by decide)⟩
